import Mathlib

/-!
Verification of the Link Store core of fs_link_manager
(src/core/database.py, src/core/query_builder.py, src/core/models.py)
against its natural-language specification.

The embedding models:
  - SQLite `LIKE` matching (ASCII case folding, `%` and `_` wildcards),
    which is the semantics of the `field LIKE ?` conditions generated by
    `SearchFilter.to_sql`;
  - the query-builder state and its `build`/`to_sql` string output;
  - the connection state of a Python `sqlite3` connection: a pending
    (in-transaction) table view and a committed view, with `commit` and
    `rollback` moving between them, so that the per-call `commit()` done
    by `add_link`/`update_link`/`delete_link` is modelled faithfully;
  - the `LinkDatabase` operations, each translated statement by statement
    from database.py, including the errors the Python runtime would raise
    (`sqlite3.OperationalError` for writes on a read-only connection,
    `sqlite3.IntegrityError` for NOT NULL violations, `AttributeError`
    for attribute access on a closed (`conn = None`) handle, `TypeError`
    for a dataclass constructor called with the wrong number of
    arguments).
-/

namespace FsLink

/-- ASCII lower-casing of a single character: this is the case folding the
SQLite `LIKE` operator applies by default (only `A`-`Z` fold, all other
characters compare verbatim). -/
def asciiLower (c : Char) : Char :=
  if 'A' ≤ c ∧ c ≤ 'Z' then Char.ofNat (c.toNat + 32) else c

/-- Fuel-based matcher behind `likeMatch`: the fuel only bounds the
recursion depth (each step consumes one unit while shortening the text or
the pattern), so that the definition is structural and evaluates by
kernel reduction; `likeMatch` always supplies enough fuel, making the
out-of-fuel branch unreachable. -/
def likeMatchAux : Nat → List Char → List Char → Bool
  | _, s, [] => s.isEmpty
  | 0, _, _ :: _ => false
  | fuel + 1, [], '%' :: p2 => likeMatchAux fuel [] p2
  | fuel + 1, a :: s2, '%' :: p2 =>
    likeMatchAux fuel (a :: s2) p2 || likeMatchAux fuel s2 ('%' :: p2)
  | _ + 1, [], _ :: _ => false
  | fuel + 1, a :: s2, c :: p2 =>
    (c == '_' || asciiLower a == asciiLower c) && likeMatchAux fuel s2 p2

/-- SQLite `LIKE` pattern matching over character lists: `%` matches any
(possibly empty) sequence, `_` matches exactly one character, and every
other pattern character matches one text character up to ASCII case
folding. `likeMatch s p` is the truth value of `s LIKE p`. -/
def likeMatch (s p : List Char) : Bool :=
  likeMatchAux (s.length + p.length) s p

/-- Boolean check that `needle` occurs as a leading block of `hay`,
comparing characters with plain equality. -/
def charsStartWith : List Char → List Char → Bool
  | [], _ => true
  | _ :: _, [] => false
  | a :: xs, b :: ys => a == b && charsStartWith xs ys

/-- Boolean contiguous-sublist check: `charsContain hay needle` holds when
`needle` occurs contiguously somewhere inside `hay`. -/
def charsContain (hay needle : List Char) : Bool :=
  match hay with
  | [] => needle.isEmpty
  | _ :: t => charsStartWith needle hay || charsContain t needle

/-- A pattern fragment is wildcard-free when it holds neither of the two
SQLite `LIKE` metacharacters. -/
abbrev noWild (p : List Char) : Prop := ∀ c ∈ p, c ≠ '%' ∧ c ≠ '_'

/-!  Stable sorting, modelling the `ORDER BY` clause of the generated
queries.  `bSort` is insertion sort parameterised by a boolean
less-or-equal test. -/

/-- Insert an element into a list in front of the first element it is
less-or-equal to. -/
def bInsert (le : α → α → Bool) (a : α) : List α → List α
  | [] => [a]
  | b :: l => if le a b then a :: b :: l else b :: bInsert le a l

/-- Insertion sort with a boolean comparator. -/
def bSort (le : α → α → Bool) : List α → List α
  | [] => []
  | a :: l => bInsert le a (bSort le l)

/-- Python str.strip() on the search text: drop leading and trailing
whitespace characters.  (Defined over the character list so that it
evaluates by kernel reduction.) -/
def pyStrip (s : String) : String :=
  ⟨((s.data.dropWhile Char.isWhitespace).reverse.dropWhile
      Char.isWhitespace).reverse⟩

/-!  Embedding of src/core/query_builder.py. -/

/-- Search target fields (class SearchField, query_builder.py). -/
inductive SearchField
  | NAME
  | PATH
  | TAGS
  | ALL
deriving DecidableEq, Repr

/-- Value of each SearchField member. -/
def SearchField.value : SearchField → String
  | .NAME => "name"
  | .PATH => "path"
  | .TAGS => "tags"
  | .ALL => "all"

/-- Search operators (class SearchOperator, query_builder.py). -/
inductive SearchOperator
  | CONTAINS
  | EQUALS
  | STARTS_WITH
  | ENDS_WITH
deriving DecidableEq, Repr

/-- SQL token of each SearchOperator member (CONTAINS, STARTS_WITH and
ENDS_WITH all carry the value "LIKE"). -/
def SearchOperator.value : SearchOperator → String
  | .CONTAINS => "LIKE"
  | .EQUALS => "="
  | .STARTS_WITH => "LIKE"
  | .ENDS_WITH => "LIKE"

/-- Search filter condition (dataclass SearchFilter, query_builder.py). -/
structure SearchFilter where
  field : SearchField
  operator : SearchOperator
  value : String
  case_sensitive : Bool := false
deriving DecidableEq, Repr

/-- The list `fields` computed at the start of SearchFilter.to_sql. -/
def SearchFilter.fieldNames (f : SearchFilter) : List String :=
  if f.field = SearchField.ALL then ["name", "path", "tags"] else [f.field.value]

/-- The `param_value` transformation of SearchFilter.to_sql: bracket the
value with `%` wildcards for the three LIKE-based operators. -/
def SearchFilter.paramValue (f : SearchFilter) : String :=
  match f.operator with
  | .CONTAINS => "%" ++ f.value ++ "%"
  | .STARTS_WITH => f.value ++ "%"
  | .ENDS_WITH => "%" ++ f.value
  | .EQUALS => f.value

/-- Whether the operator is one of the three membership tests rendered as
`LIKE` (the `self.operator in (CONTAINS, STARTS_WITH, ENDS_WITH)` check in
to_sql). -/
def SearchFilter.isLikeOp (f : SearchFilter) : Bool :=
  match f.operator with
  | .EQUALS => false
  | _ => true

/-- SearchFilter.to_sql: WHERE fragment (one condition per concrete field,
joined with OR) and the parameter list (the transformed value repeated
once per field). -/
def SearchFilter.to_sql (f : SearchFilter) : String × List String :=
  let conditions := f.fieldNames.map
    (fun fld => if f.isLikeOp then fld ++ " LIKE ?" else fld ++ " = ?")
  let params := f.fieldNames.map (fun _ => f.paramValue)
  (String.intercalate " OR " conditions, params)

/-- Builder state (class SearchQueryBuilder, query_builder.py): ordered
filters plus an order-by column and direction, with the defaults set in
its `init` method. -/
structure SearchQueryBuilder where
  filters : List SearchFilter := []
  order_by : String := "position"
  order_direction : String := "ASC"
deriving DecidableEq, Repr

/-- A freshly constructed builder. -/
def SearchQueryBuilder.new : SearchQueryBuilder := {}

/-- SearchQueryBuilder.add_filter: append a filter. -/
def SearchQueryBuilder.add_filter (b : SearchQueryBuilder) (field : SearchField)
    (value : String) (operator : SearchOperator := .CONTAINS)
    (case_sensitive : Bool := false) : SearchQueryBuilder :=
  { b with filters := b.filters ++ [⟨field, operator, value, case_sensitive⟩] }

/-- SearchQueryBuilder.simple_search: add one ALL-field CONTAINS filter
when the stripped query is non-empty (Python truthiness of
`query.strip()`), otherwise leave the builder unchanged. -/
def SearchQueryBuilder.simple_search (b : SearchQueryBuilder) (query : String) :
    SearchQueryBuilder :=
  if pyStrip query ≠ "" then b.add_filter .ALL (pyStrip query) .CONTAINS else b

/-- SearchQueryBuilder.set_order. -/
def SearchQueryBuilder.set_order (b : SearchQueryBuilder) (field : String)
    (direction : String := "ASC") : SearchQueryBuilder :=
  { b with order_by := field, order_direction := direction.toUpper }

/-- SearchQueryBuilder.build: the SELECT statement over the six listed
columns, a WHERE clause joining the filters with AND (each filter's
fragment parenthesised when more than one filter is present), and the
concatenated parameter lists. -/
def SearchQueryBuilder.build (b : SearchQueryBuilder) : String × List String :=
  let base_query := "SELECT id, name, path, tags, position, added_at FROM links"
  if b.filters = [] then
    (base_query ++ " ORDER BY " ++ b.order_by ++ " " ++ b.order_direction ++ ";", [])
  else
    let where_conditions := b.filters.map
      (fun f => if b.filters.length > 1 then "(" ++ f.to_sql.1 ++ ")" else f.to_sql.1)
    let all_params := (b.filters.map (fun f => f.to_sql.2)).flatten
    let where_clause := String.intercalate " AND " where_conditions
    (base_query ++ " WHERE " ++ where_clause ++ " ORDER BY " ++ b.order_by ++ " "
      ++ b.order_direction ++ ";", all_params)

/-- SearchQueryBuilder.filter_by_tags: for a non-empty tag list, append
one TAGS-field CONTAINS filter per tag; the two match-mode branches of the
source execute the same loop body. -/
def SearchQueryBuilder.filter_by_tags (b : SearchQueryBuilder)
    (tags : List String) (match_mode : String := "OR") : SearchQueryBuilder :=
  if tags = [] then b
  else if match_mode = "OR" then
    tags.foldl (fun bb tag => bb.add_filter .TAGS tag .CONTAINS) b
  else
    tags.foldl (fun bb tag => bb.add_filter .TAGS tag .CONTAINS) b

/-- SearchQueryBuilder.clear: drop the filters, keep the ordering. -/
def SearchQueryBuilder.clear (b : SearchQueryBuilder) : SearchQueryBuilder :=
  { b with filters := [] }

/-!  Embedding of src/core/models.py and src/core/database.py. -/

/-- One row of the `links` table as created by `_init_schema`:
`id INTEGER PRIMARY KEY AUTOINCREMENT, name TEXT NOT NULL, path TEXT NOT
NULL, tags TEXT, position INTEGER NOT NULL, added_at TEXT NOT NULL,
custom_icon TEXT`. -/
structure Row where
  id : Int
  name : String
  path : String
  tags : String
  position : Int
  added_at : String
  custom_icon : String
deriving DecidableEq, Repr

/-- The dataclass LinkRecord of models.py: exactly the six fields below
(custom_icon is not among them). -/
structure LinkRecord where
  id : Int
  name : String
  path : String
  tags : String
  position : Int
  added_at : String
deriving DecidableEq, Repr

/-- One SQL value of a result tuple. -/
inductive SqlValue
  | int (n : Int)
  | text (s : String)
deriving DecidableEq, Repr

/-- The exceptions the modelled operations can raise: RuntimeError is
raised by the wrapper itself (transaction() on a read-only store);
OperationalError and IntegrityError are sqlite3 storage-layer errors
(write on a read-only connection, NOT NULL violation); TypeError is the
Python runtime's error for a constructor called with too many arguments;
AttributeError is the Python runtime's error for attribute access on the
None left in self.conn after close(). -/
inductive Err
  | runtimeError (msg : String)
  | operationalError (msg : String)
  | integrityError (msg : String)
  | typeError (msg : String)
  | attributeError (msg : String)
deriving DecidableEq, Repr

/-- Decidable equality of call results, so that concrete scenarios can be
settled by evaluation. -/
instance {ε α : Type} [DecidableEq ε] [DecidableEq α] :
    DecidableEq (Except ε α)
  | .ok a, .ok b =>
    if h : a = b then .isTrue (by rw [h])
    else .isFalse (fun hh => h (Except.ok.inj hh))
  | .error e, .error f =>
    if h : e = f then .isTrue (by rw [h])
    else .isFalse (fun hh => h (Except.error.inj hh))
  | .ok _, .error _ => .isFalse (fun hh => Except.noConfusion hh)
  | .error _, .ok _ => .isFalse (fun hh => Except.noConfusion hh)

/-- Applying the LinkRecord dataclass constructor to a result tuple, as in
the `LinkRecord(*row)` of list_links / search_links / get_link_by_id.
The generated dataclass initializer takes exactly six positional
arguments after self, so a seven-column tuple raises TypeError.  (The
embedding only ever applies this to the two SELECT tuple shapes
`selectCols6` and `selectCols7`, so the catch-all branch is the arity
error.) -/
def LinkRecord.ofArgs : List SqlValue → Except Err LinkRecord
  | [.int i, .text n, .text p, .text t, .int pos, .text a] =>
    .ok ⟨i, n, p, t, pos, a⟩
  | args =>
    .error (.typeError ("LinkRecord.__init__() takes 7 positional arguments but "
      ++ toString (args.length + 1) ++ " were given"))

/-- The table contents plus the AUTOINCREMENT sequence value (stored in
sqlite_sequence): a newly inserted row receives id `seq + 1`. -/
structure TableState where
  rows : List Row
  seq : Int
deriving DecidableEq, Repr

/-- A live sqlite3 connection: the in-transaction view `cur` and the last
committed view `committed`; `commit` copies cur into committed,
`rollback` restores cur from committed. -/
structure Conn where
  cur : TableState
  committed : TableState
deriving DecidableEq, Repr

/-- class LinkDatabase: the optional connection handle (None after
close()) and the read_only flag set at construction. -/
structure LinkDatabase where
  conn : Option Conn
  read_only : Bool
deriving DecidableEq, Repr

/-- The text column addressed by name in a generated WHERE condition.
Only "name", "path" and "tags" ever occur there (SearchField.value of the
concrete fields and the expansion of ALL); the final branch is dead. -/
def colText (colName : String) (r : Row) : String :=
  if colName = "name" then r.name
  else if colName = "path" then r.path
  else if colName = "tags" then r.tags
  else ""

/-- Truth value of one generated condition `fld LIKE ?` resp. `fld = ?`
against the stored text `s`, with the bound parameter `f.paramValue`:
LIKE is SQLite pattern matching (ASCII case folding, wildcards), `=` is
SQLite's case-sensitive binary text comparison. -/
def SearchFilter.evalCond (f : SearchFilter) (s : String) : Bool :=
  if f.isLikeOp then likeMatch s.data f.paramValue.data
  else s == f.paramValue

/-- Truth value of the whole fragment produced by SearchFilter.to_sql:
the OR-join of the per-field conditions. -/
def SearchFilter.eval (f : SearchFilter) (r : Row) : Bool :=
  f.fieldNames.any (fun fld => f.evalCond (colText fld r))

/-- Truth value of the WHERE clause assembled by SearchQueryBuilder.build:
the AND-join of the filter fragments; with no filters there is no WHERE
clause and every row qualifies. -/
def evalFilters (fs : List SearchFilter) (r : Row) : Bool :=
  fs.all (fun f => f.eval r)

/-- Code-point-wise less-or-equal on text: the BINARY collation SQLite
applies when ordering TEXT columns. -/
def strLeB : List Char → List Char → Bool
  | [], _ => true
  | _ :: _, [] => false
  | a :: x, b :: y => if a = b then strLeB x y else decide (a.toNat < b.toNat)

/-- Comparator of `ORDER BY position`. -/
def posLe (a b : Row) : Bool := decide (a.position ≤ b.position)

/-- Comparator for `ORDER BY column`; none for an unknown column name
(sqlite would report "no such column", since set_order never validates
the name). -/
def colRel (colName : String) : Option (Row → Row → Bool) :=
  if colName = "id" then some (fun a b => decide (a.id ≤ b.id))
  else if colName = "name" then some (fun a b => strLeB a.name.data b.name.data)
  else if colName = "path" then some (fun a b => strLeB a.path.data b.path.data)
  else if colName = "tags" then some (fun a b => strLeB a.tags.data b.tags.data)
  else if colName = "position" then some posLe
  else if colName = "added_at" then some (fun a b => strLeB a.added_at.data b.added_at.data)
  else if colName = "custom_icon" then some (fun a b => strLeB a.custom_icon.data b.custom_icon.data)
  else none

/-- Direction handling of the interpolated `order_direction`: ASC keeps
the comparator, DESC flips it, anything else is a SQL syntax error. -/
def dirRel (direction : String) (le : Row → Row → Bool) :
    Option (Row → Row → Bool) :=
  if direction = "ASC" then some le
  else if direction = "DESC" then some (fun a b => le b a)
  else none

/-- Column tuple of the SELECT list written by SearchQueryBuilder.build:
id, name, path, tags, position, added_at - and nothing else. -/
def selectCols6 (r : Row) : List SqlValue :=
  [.int r.id, .text r.name, .text r.path, .text r.tags, .int r.position,
   .text r.added_at]

/-- Column tuple of the hand-written SELECT in get_link_by_id: the six
columns above plus custom_icon, seven in total. -/
def selectCols7 (r : Row) : List SqlValue :=
  [.int r.id, .text r.name, .text r.path, .text r.tags, .int r.position,
   .text r.added_at, .text r.custom_icon]

/-- Execution of a built query against the connection's current view:
keep the rows satisfying the WHERE clause, sort them by the ORDER BY
clause, and project each row to the selected column tuple. -/
def execQuery (c : Conn) (b : SearchQueryBuilder)
    (cols : Row → List SqlValue) : Except Err (List (List SqlValue)) :=
  match colRel b.order_by with
  | none => .error (.operationalError ("no such column: " ++ b.order_by))
  | some le =>
    match dirRel b.order_direction le with
    | none => .error (.operationalError "incomplete input")
    | some le2 =>
      .ok ((bSort le2 (c.cur.rows.filter (evalFilters b.filters))).map cols)

/-- The maximum-position query of add_link:
`SELECT COALESCE(MAX(position), -1) + 1 FROM links`. -/
def nextPosition (rows : List Row) : Int :=
  (rows.foldl (fun m r => max m r.position) (-1)) + 1

/-- LinkDatabase.add_link. The handle is dereferenced first
(`self.conn.cursor()`), so a closed store raises AttributeError; the
INSERT fails with sqlite3.OperationalError on a read-only connection and
with sqlite3.IntegrityError when a NOT NULL column receives None; on
success the row is inserted, the per-call `self.conn.commit()` makes it
durable, and `cur.lastrowid` is returned.  `name`/`path` are Options
because a Python caller can pass None despite the annotations - that is
how a NOT NULL constraint violation is provoked; `now` stands for
`datetime.now().isoformat(timespec="seconds")`. -/
def add_link (db : LinkDatabase) (name path : Option String)
    (tags : String := "") (custom_icon : String := "") (now : String := "") :
    LinkDatabase × Except Err Int :=
  match db.conn with
  | none => (db, .error (.attributeError "NoneType object has no attribute cursor"))
  | some c =>
    let next_pos := nextPosition c.cur.rows
    if db.read_only then
      (db, .error (.operationalError "attempt to write a readonly database"))
    else
      match name, path with
      | some n, some p =>
        let newId := c.cur.seq + 1
        let row : Row := ⟨newId, n, p, tags, next_pos, now, custom_icon⟩
        let t : TableState := ⟨c.cur.rows ++ [row], newId⟩
        ({ db with conn := some ⟨t, t⟩ }, .ok newId)
      | _, _ => (db, .error (.integrityError "NOT NULL constraint failed: links"))

/-- The SET clauses of update_link: each supplied value replaces the
stored one, an omitted value keeps it; id, position and added_at are
never touched. -/
def applyUpdate (name path tags custom_icon : Option String) (r : Row) : Row :=
  { r with
    name := name.getD r.name
    path := path.getD r.path
    tags := tags.getD r.tags
    custom_icon := custom_icon.getD r.custom_icon }

/-- LinkDatabase.update_link: with no supplied fields the `if not sets:
return` fires before the connection is touched; otherwise one UPDATE over
the rows with matching id runs and is committed. -/
def update_link (db : LinkDatabase) (id_ : Int)
    (name : Option String := none) (path : Option String := none)
    (tags : Option String := none) (custom_icon : Option String := none) :
    LinkDatabase × Except Err Unit :=
  if name = none ∧ path = none ∧ tags = none ∧ custom_icon = none then
    (db, .ok ())
  else
    match db.conn with
    | none => (db, .error (.attributeError "NoneType object has no attribute execute"))
    | some c =>
      if db.read_only then
        (db, .error (.operationalError "attempt to write a readonly database"))
      else
        let rows2 := c.cur.rows.map
          (fun r => if r.id = id_ then applyUpdate name path tags custom_icon r else r)
        let t : TableState := ⟨rows2, c.cur.seq⟩
        ({ db with conn := some ⟨t, t⟩ }, .ok ())

/-- LinkDatabase.delete_link: DELETE of the rows with matching id,
committed; deleting an absent id deletes zero rows and is no error. -/
def delete_link (db : LinkDatabase) (id_ : Int) :
    LinkDatabase × Except Err Unit :=
  match db.conn with
  | none => (db, .error (.attributeError "NoneType object has no attribute execute"))
  | some c =>
    if db.read_only then
      (db, .error (.operationalError "attempt to write a readonly database"))
    else
      let t : TableState := ⟨c.cur.rows.filter (fun r => r.id != id_), c.cur.seq⟩
      ({ db with conn := some ⟨t, t⟩ }, .ok ())

/-- LinkDatabase.list_links: run simple_search on a fresh builder,
execute the built query and map each result tuple through the LinkRecord
constructor. -/
def list_links (db : LinkDatabase) (search : String := "") :
    Except Err (List LinkRecord) :=
  match db.conn with
  | none => .error (.attributeError "NoneType object has no attribute execute")
  | some c =>
    let b := SearchQueryBuilder.new.simple_search search
    match execQuery c b selectCols6 with
    | .error e => .error e
    | .ok tuples => tuples.mapM LinkRecord.ofArgs

/-- LinkDatabase.search_links: execute a caller-supplied builder. -/
def search_links (db : LinkDatabase) (b : SearchQueryBuilder) :
    Except Err (List LinkRecord) :=
  match db.conn with
  | none => .error (.attributeError "NoneType object has no attribute execute")
  | some c =>
    match execQuery c b selectCols6 with
    | .error e => .error e
    | .ok tuples => tuples.mapM LinkRecord.ofArgs

/-- LinkDatabase.get_link_by_id: a SELECT of all seven columns WHERE id
matches, fetchone taking the first such row; a found row is passed to the
dataclass constructor as `LinkRecord(*row)` with its seven values. -/
def get_link_by_id (db : LinkDatabase) (id_ : Int) :
    Except Err (Option LinkRecord) :=
  match db.conn with
  | none => .error (.attributeError "NoneType object has no attribute cursor")
  | some c =>
    match c.cur.rows.find? (fun r => r.id == id_) with
    | none => .ok none
    | some r =>
      match LinkRecord.ofArgs (selectCols7 r) with
      | .error e => .error e
      | .ok rec2 => .ok (some rec2)

/-- conn.commit() on a possibly closed handle. -/
def commitConn (db : LinkDatabase) : LinkDatabase × Except Err Unit :=
  match db.conn with
  | none => (db, .error (.attributeError "NoneType object has no attribute commit"))
  | some c => ({ db with conn := some ⟨c.cur, c.cur⟩ }, .ok ())

/-- conn.rollback() on a possibly closed handle. -/
def rollbackConn (db : LinkDatabase) : LinkDatabase × Except Err Unit :=
  match db.conn with
  | none => (db, .error (.attributeError "NoneType object has no attribute rollback"))
  | some c => ({ db with conn := some ⟨c.committed, c.committed⟩ }, .ok ())

/-- LinkDatabase.transaction used as a context manager around `body`:
refuse on a read-only store; otherwise run the body and commit on normal
completion; on an exception roll back and re-raise.  The commit sits
inside the try block, so a commit failure also takes the rollback path,
and a failure of the rollback itself (e.g. on a closed handle)
propagates in place of the original exception. -/
def transaction (db : LinkDatabase)
    (body : LinkDatabase → LinkDatabase × Except Err α) :
    LinkDatabase × Except Err α :=
  if db.read_only then
    (db, .error (.runtimeError "Cannot start transaction on read-only database"))
  else
    match body db with
    | (db2, .ok a) =>
      match commitConn db2 with
      | (db3, .ok _) => (db3, .ok a)
      | (db3, .error e) =>
        match rollbackConn db3 with
        | (db4, .ok _) => (db4, .error e)
        | (db4, .error e2) => (db4, .error e2)
    | (db2, .error e) =>
      match rollbackConn db2 with
      | (db3, .ok _) => (db3, .error e)
      | (db3, .error e2) => (db3, .error e2)

/-- One raw `UPDATE links SET position = ? WHERE id = ?` statement of the
reorder loop; it does not commit. -/
def execSetPosition (db : LinkDatabase) (pos : Int) (id_ : Int) :
    LinkDatabase × Except Err Unit :=
  match db.conn with
  | none => (db, .error (.attributeError "NoneType object has no attribute execute"))
  | some c =>
    if db.read_only then
      (db, .error (.operationalError "attempt to write a readonly database"))
    else
      let rows2 := c.cur.rows.map
        (fun r => if r.id = id_ then { r with position := pos } else r)
      ({ db with conn := some ⟨⟨rows2, c.cur.seq⟩, c.committed⟩ }, .ok ())

/-- The `for pos, id_ in enumerate(ordered_ids)` loop of reorder, with
the running enumeration index made explicit. -/
def reorderLoop (pos : Nat) (ids : List Int) (db : LinkDatabase) :
    LinkDatabase × Except Err Unit :=
  match ids with
  | [] => (db, .ok ())
  | id_ :: rest =>
    match execSetPosition db (Int.ofNat pos) id_ with
    | (db2, .ok _) => reorderLoop (pos + 1) rest db2
    | (db2, .error e) => (db2, .error e)

/-- LinkDatabase.reorder: the position-reassignment loop wrapped in
transaction(). -/
def reorder (db : LinkDatabase) (ordered_ids : List Int) :
    LinkDatabase × Except Err Unit :=
  transaction db (reorderLoop 0 ordered_ids)

/-- LinkDatabase.close: best-effort close of the handle, swallowing any
close error, always leaving self.conn = None; on an already closed store
the `if self.conn:` guard makes it a no-op.  It never raises, so it is a
total function. -/
def close (db : LinkDatabase) : LinkDatabase :=
  { db with conn := none }

/-- The rows visible through the store's connection (empty for a closed
store); used to state frame conditions. -/
def dbRows (db : LinkDatabase) : List Row :=
  match db.conn with
  | none => []
  | some c => c.cur.rows

/-- The durably committed rows behind the store's connection. -/
def dbCommittedRows (db : LinkDatabase) : List Row :=
  match db.conn with
  | none => []
  | some c => c.committed.rows


/-!  Specification-side predicates and concrete scenario material used by
the claim theorems. -/

/-- The six-field projection of a stored row: what a result tuple of the
builder's SELECT list turns into through the LinkRecord constructor.  It
has no custom_icon component. -/
def projRecord (r : Row) : LinkRecord :=
  ⟨r.id, r.name, r.path, r.tags, r.position, r.added_at⟩

/-- Specification-side predicate, written from the claim wording: `hay`
contains `needle` as a literal substring, case-insensitively (ASCII). -/
def containsCI (hay needle : String) : Bool :=
  charsContain (hay.data.map asciiLower) (needle.data.map asciiLower)

/-- Specification-side predicate of the round-trip-search claim: the
record's name, path or tags contain the search string as a literal
substring, case-insensitively. -/
def specMatch (x : String) (r : Row) : Bool :=
  containsCI r.name x || containsCI r.path x || containsCI r.tags x

/-- Whether an error is one of the sqlite3 storage-layer exception
classes, as opposed to an error the wrapper raises itself. -/
def Err.isStorageLayer : Err → Bool
  | .operationalError _ => true
  | .integrityError _ => true
  | _ => false

/-- Rewrite only the custom_icon column of a row. -/
def iconMap (g : Row → String) (r : Row) : Row :=
  { r with custom_icon := g r }

/-- Index of an id in an id list (first occurrence). -/
def idxIn : List Int → Int → Nat
  | [], _ => 0
  | j :: rest, i => if i = j then 0 else idxIn rest i + 1

/-- Pure effect of the reorder loop on the table rows, starting at
enumeration index `pos`. -/
def applyReorder : Nat → List Int → List Row → List Row
  | _, [], rows => rows
  | pos, i :: rest, rows =>
    applyReorder (pos + 1) rest
      (rows.map (fun r => if r.id = i then { r with position := Int.ofNat pos } else r))

/-- Python-style sequencing of two store calls: the second runs only when
the first did not raise; the state reached so far survives an exception. -/
def pyBind (r : LinkDatabase × Except Err α)
    (f : α → LinkDatabase → LinkDatabase × Except Err β) :
    LinkDatabase × Except Err β :=
  match r with
  | (db, .ok a) => f a db
  | (db, .error e) => (db, .error e)

/-- A freshly initialised store: empty table, AUTOINCREMENT sequence at
zero, read-write. -/
def emptyDb : LinkDatabase := ⟨some ⟨⟨[], 0⟩, ⟨[], 0⟩⟩, false⟩

/-- A sample stored row. -/
def sampleRow : Row := ⟨1, "Doc", "/docs/a.txt", "work", 0, "2024-01-01T00:00:00", ""⟩

/-- A store holding `sampleRow`, at rest (committed = current). -/
def oneRowDb : LinkDatabase :=
  ⟨some ⟨⟨[sampleRow], 1⟩, ⟨[sampleRow], 1⟩⟩, false⟩

/-- The same populated store opened with read_only=True. -/
def roDb : LinkDatabase :=
  ⟨some ⟨⟨[sampleRow], 1⟩, ⟨[sampleRow], 1⟩⟩, true⟩

/-- A row none of whose text fields contains an underscore or percent
sign. -/
def plainRow : Row := ⟨1, "alpha", "beta", "", 0, "2024-01-01T00:00:00", ""⟩

/-- A store holding `plainRow`, at rest. -/
def plainDb : LinkDatabase :=
  ⟨some ⟨⟨[plainRow], 1⟩, ⟨[plainRow], 1⟩⟩, false⟩

/-- A store built by two add_link calls on a fresh store: ids 1 and 2 at
positions 0 and 1. -/
def twoRowDb : LinkDatabase :=
  (add_link (add_link emptyDb (some "Doc") (some "/a") "" "" "t1").1
    (some "Img") (some "/b") "" "" "t2").1

/-- The transaction body of the atomicity scenario of the spec: three
add_link calls, the third passing None for the NOT NULL name column so
that it fails deterministically with an IntegrityError. -/
def addThreeBody (db : LinkDatabase) : LinkDatabase × Except Err Unit :=
  pyBind (add_link db (some "A") (some "/a") "" "" "t1") (fun _ db1 =>
    pyBind (add_link db1 (some "B") (some "/b") "" "" "t2") (fun _ db2 =>
      pyBind (add_link db2 none (some "/c") "" "" "t3") (fun _ db3 =>
        (db3, .ok ()))))

/-- One store call of a mutation sequence: an add (with its timestamp), a
delete, or a reorder. -/
inductive Op
  | add (name path tags icon now : String)
  | del (id_ : Int)
  | reord (ids : List Int)

/-- Run one call, keeping the id an add returned. -/
def runOp (db : LinkDatabase) : Op → LinkDatabase × Option Int
  | .add n p t i now =>
    match add_link db (some n) (some p) t i now with
    | (db2, .ok v) => (db2, some v)
    | (db2, .error _) => (db2, none)
  | .del i => ((delete_link db i).1, none)
  | .reord ids => ((reorder db ids).1, none)

/-- Run a sequence of calls, collecting the ids returned by the adds in
order. -/
def runOps (db : LinkDatabase) : List Op → LinkDatabase × List Int
  | [] => (db, [])
  | op :: rest =>
    let step := runOp db op
    let tail := runOps step.1 rest
    (tail.1, step.2.toList ++ tail.2)

/-! Helper lemmas. -/

theorem likeMatchAux_congr : ∀ (f1 : Nat) (f2 : Nat) (s p : List Char),
    s.length + p.length ≤ f1 → s.length + p.length ≤ f2 →
    likeMatchAux f1 s p = likeMatchAux f2 s p := by
  intro f1
  induction f1 with
  | zero =>
    intro f2 s p h1 h2
    cases p with
    | nil => cases f2 <;> simp [likeMatchAux]
    | cons c p2 =>
      exfalso
      simp [List.length_cons] at h1
  | succ g1 ih =>
    intro f2 s p h1 h2
    cases p with
    | nil => cases f2 <;> simp [likeMatchAux]
    | cons c p2 =>
      cases f2 with
      | zero =>
        exfalso
        simp [List.length_cons] at h2
      | succ g2 =>
        simp only [List.length_cons] at h1 h2
        by_cases hc : c = '%'
        · subst hc
          cases s with
          | nil =>
            show likeMatchAux g1 [] p2 = likeMatchAux g2 [] p2
            exact ih g2 [] p2 (by simp at h1 ⊢; omega) (by simp at h2 ⊢; omega)
          | cons a s2 =>
            show (likeMatchAux g1 (a :: s2) p2 || likeMatchAux g1 s2 ('%' :: p2)) =
              (likeMatchAux g2 (a :: s2) p2 || likeMatchAux g2 s2 ('%' :: p2))
            simp only [List.length_cons] at h1 h2
            rw [ih g2 (a :: s2) p2 (by simp; omega) (by simp; omega),
              ih g2 s2 ('%' :: p2) (by simp; omega) (by simp; omega)]
        · cases s with
          | nil => simp [likeMatchAux, hc]
          | cons a s2 =>
            simp only [List.length_cons] at h1 h2
            rw [show likeMatchAux (g1 + 1) (a :: s2) (c :: p2) =
                ((c == '_' || asciiLower a == asciiLower c) && likeMatchAux g1 s2 p2) by
                  simp [likeMatchAux, hc],
              show likeMatchAux (g2 + 1) (a :: s2) (c :: p2) =
                ((c == '_' || asciiLower a == asciiLower c) && likeMatchAux g2 s2 p2) by
                  simp [likeMatchAux, hc],
              ih g2 s2 p2 (by omega) (by omega)]

theorem likeMatch_nil (s : List Char) : likeMatch s [] = s.isEmpty := by
  cases s <;> simp [likeMatch, likeMatchAux]

theorem likeMatch_pct_nil (p2 : List Char) :
    likeMatch [] ('%' :: p2) = likeMatch [] p2 := by
  show likeMatchAux (0 + (p2.length + 1)) [] ('%' :: p2) = _
  rw [show 0 + (p2.length + 1) = (0 + p2.length) + 1 by omega]
  show likeMatchAux (0 + p2.length) [] p2 = _
  rfl

theorem likeMatch_pct_cons (a : Char) (s2 p2 : List Char) :
    likeMatch (a :: s2) ('%' :: p2) =
      (likeMatch (a :: s2) p2 || likeMatch s2 ('%' :: p2)) := by
  show likeMatchAux ((s2.length + 1) + (p2.length + 1)) (a :: s2) ('%' :: p2) = _
  rw [show (s2.length + 1) + (p2.length + 1) = (s2.length + p2.length + 1) + 1 by omega]
  show (likeMatchAux (s2.length + p2.length + 1) (a :: s2) p2 ||
      likeMatchAux (s2.length + p2.length + 1) s2 ('%' :: p2)) = _
  unfold likeMatch
  rw [likeMatchAux_congr (s2.length + p2.length + 1) ((a :: s2).length + p2.length)
      (a :: s2) p2 (by simp only [List.length_cons]; omega)
      (by simp only [List.length_cons]; omega),
    likeMatchAux_congr (s2.length + p2.length + 1) (s2.length + ('%' :: p2).length)
      s2 ('%' :: p2) (by simp only [List.length_cons]; omega)
      (by simp only [List.length_cons]; omega)]

theorem likeMatch_lit_nil {c : Char} (h : c ≠ '%') (p2 : List Char) :
    likeMatch [] (c :: p2) = false := by
  show likeMatchAux (0 + (p2.length + 1)) [] (c :: p2) = false
  rw [show 0 + (p2.length + 1) = p2.length + 1 by omega]
  simp [likeMatchAux, h]

theorem likeMatch_lit_cons {c : Char} (h : c ≠ '%') (a : Char) (s2 p2 : List Char) :
    likeMatch (a :: s2) (c :: p2) =
      ((c == '_' || asciiLower a == asciiLower c) && likeMatch s2 p2) := by
  show likeMatchAux ((s2.length + 1) + (p2.length + 1)) (a :: s2) (c :: p2) = _
  rw [show (s2.length + 1) + (p2.length + 1) = (s2.length + p2.length + 1) + 1 by omega]
  rw [show likeMatchAux ((s2.length + p2.length + 1) + 1) (a :: s2) (c :: p2) =
      ((c == '_' || asciiLower a == asciiLower c) &&
        likeMatchAux (s2.length + p2.length + 1) s2 p2) by
      simp [likeMatchAux, h]]
  unfold likeMatch
  rw [likeMatchAux_congr (s2.length + p2.length + 1) (s2.length + p2.length)
    s2 p2 (by omega) (by omega)]


theorem charsStartWith_iff (needle hay : List Char) :
    charsStartWith needle hay = true ↔ ∃ rest, hay = needle ++ rest := by
  induction needle generalizing hay with
  | nil => simp [charsStartWith]
  | cons a xs ih =>
    cases hay with
    | nil => simp [charsStartWith]
    | cons b ys =>
      simp only [charsStartWith, Bool.and_eq_true, beq_iff_eq, ih,
        List.cons_append, List.cons.injEq]
      constructor
      · rintro ⟨rfl, rest, rfl⟩
        exact ⟨rest, rfl, rfl⟩
      · rintro ⟨rest, rfl, rfl⟩
        exact ⟨rfl, rest, rfl⟩

theorem charsContain_iff (hay needle : List Char) :
    charsContain hay needle = true ↔ ∃ pre post, hay = pre ++ needle ++ post := by
  induction hay with
  | nil =>
    simp only [charsContain, List.isEmpty_iff]
    constructor
    · rintro rfl
      exact ⟨[], [], rfl⟩
    · rintro ⟨pre, post, h⟩
      have h2 : pre ++ needle ++ post = [] := h.symm
      simp only [List.append_eq_nil] at h2
      exact h2.1.2
  | cons b t ih =>
    simp only [charsContain, Bool.or_eq_true, charsStartWith_iff, ih]
    constructor
    · rintro (⟨rest, h⟩ | ⟨pre, post, h⟩)
      · exact ⟨[], rest, by simpa using h⟩
      · exact ⟨b :: pre, post, by simp [h]⟩
    · rintro ⟨pre, post, h⟩
      cases pre with
      | nil => exact Or.inl ⟨post, by simpa using h⟩
      | cons p ps =>
        simp only [List.cons_append, List.cons.injEq] at h
        exact Or.inr ⟨ps, post, h.2⟩


theorem likeMatch_pct_iff (s p : List Char) :
    likeMatch s ('%' :: p) = true ↔
      ∃ s1 s2, s = s1 ++ s2 ∧ likeMatch s2 p = true := by
  induction s with
  | nil =>
    rw [likeMatch_pct_nil]
    constructor
    · intro h
      exact ⟨[], [], rfl, h⟩
    · rintro ⟨s1, s2, h, hm⟩
      have h2 : s1 ++ s2 = [] := h.symm
      simp only [List.append_eq_nil] at h2
      rw [h2.2] at hm
      exact hm
  | cons a s' ih =>
    rw [likeMatch_pct_cons]
    simp only [Bool.or_eq_true, ih]
    constructor
    · rintro (h | ⟨s1, s2, rfl, hm⟩)
      · exact ⟨[], a :: s', rfl, h⟩
      · exact ⟨a :: s1, s2, rfl, hm⟩
    · rintro ⟨s1, s2, h, hm⟩
      cases s1 with
      | nil =>
        simp only [List.nil_append] at h
        rw [h]
        exact Or.inl hm
      | cons b s1' =>
        simp only [List.cons_append, List.cons.injEq] at h
        exact Or.inr ⟨s1', s2, h.2, hm⟩

theorem likeMatch_lit_append_iff {lit : List Char} (hw : noWild lit)
    (s p : List Char) :
    likeMatch s (lit ++ p) = true ↔
      ∃ s1 s2, s = s1 ++ s2 ∧ s1.map asciiLower = lit.map asciiLower ∧
        likeMatch s2 p = true := by
  induction lit generalizing s with
  | nil =>
    simp only [List.nil_append, List.map_nil, List.map_eq_nil_iff]
    constructor
    · intro h
      exact ⟨[], s, rfl, rfl, h⟩
    · rintro ⟨s1, s2, rfl, h1, hm⟩
      rw [h1]
      simpa using hm
  | cons c lit' ih =>
    have hc : c ≠ '%' := (hw c (List.mem_cons_self c lit')).1
    have hu : c ≠ '_' := (hw c (List.mem_cons_self c lit')).2
    have hw' : noWild lit' := fun d hd => hw d (List.mem_cons_of_mem c hd)
    cases s with
    | nil =>
      rw [List.cons_append, likeMatch_lit_nil hc]
      simp only [Bool.false_eq_true, false_iff]
      rintro ⟨s1, s2, h, h1, hm⟩
      have h2 : s1 ++ s2 = [] := h.symm
      simp only [List.append_eq_nil] at h2
      rw [h2.1] at h1
      simp at h1
    | cons a s' =>
      rw [List.cons_append, likeMatch_lit_cons hc]
      have hcu : (c == '_') = false := by
        simp [hu]
      rw [hcu]
      simp only [Bool.false_or, Bool.and_eq_true, beq_iff_eq, ih hw']
      constructor
      · rintro ⟨hac, s1, s2, rfl, h1, hm⟩
        exact ⟨a :: s1, s2, rfl, by simp [hac, h1], hm⟩
      · rintro ⟨s1, s2, h, h1, hm⟩
        cases s1 with
        | nil => simp at h1
        | cons b s1' =>
          simp only [List.cons_append, List.cons.injEq] at h
          simp only [List.map_cons, List.cons.injEq] at h1
          refine ⟨by rw [h.1]; exact h1.1, s1', s2, h.2, h1.2, hm⟩

theorem likeMatch_pct_end (s : List Char) : likeMatch s ['%'] = true := by
  induction s with
  | nil =>
    rw [likeMatch_pct_nil, likeMatch_nil]
    rfl
  | cons a s' ih =>
    rw [likeMatch_pct_cons]
    simp [ih]

/-- The SQLite condition `s LIKE '%lit%'` with a wildcard-free `lit` is
exactly case-folded contiguous containment of `lit` in `s`. -/
theorem likeMatch_contains_iff {lit : List Char} (hw : noWild lit)
    (s : List Char) :
    likeMatch s ('%' :: (lit ++ ['%'])) = true ↔
      charsContain (s.map asciiLower) (lit.map asciiLower) = true := by
  rw [likeMatch_pct_iff, charsContain_iff]
  constructor
  · rintro ⟨s1, s2, rfl, hm⟩
    rw [likeMatch_lit_append_iff hw] at hm
    obtain ⟨u, v, rfl, hu, _⟩ := hm
    refine ⟨s1.map asciiLower, v.map asciiLower, ?_⟩
    simp [hu]
  · rintro ⟨pre, post, h⟩
    rw [List.map_eq_append_iff] at h
    obtain ⟨l1, l2, rfl, h1, h2⟩ := h
    rw [List.map_eq_append_iff] at h1
    obtain ⟨u, v, rfl, hu, hv⟩ := h1
    exact ⟨u, v ++ l2, List.append_assoc u v l2,
      (likeMatch_lit_append_iff hw (v ++ l2) ['%']).mpr
        ⟨v, l2, rfl, hv, likeMatch_pct_end l2⟩⟩


theorem bInsert_perm (le : α → α → Bool) (a : α) (l : List α) :
    List.Perm (bInsert le a l) (a :: l) := by
  induction l with
  | nil => rfl
  | cons b l ih =>
    rw [bInsert]
    by_cases h : le a b
    · simp [h]
    · simp only [h, if_neg, Bool.false_eq_true, if_false]
      exact ((ih.cons b).trans (List.Perm.swap a b l))

theorem bSort_perm (le : α → α → Bool) (l : List α) : List.Perm (bSort le l) l := by
  induction l with
  | nil => rfl
  | cons a l ih => exact (bInsert_perm le a (bSort le l)).trans (ih.cons a)

theorem bInsert_pairwise {le : α → α → Bool}
    (htot : ∀ x y, le x y || le y x) (htr : ∀ x y z, le x y → le y z → le x z)
    (a : α) {l : List α} (hl : l.Pairwise (fun x y => le x y = true)) :
    (bInsert le a l).Pairwise (fun x y => le x y = true) := by
  induction l with
  | nil => simp [bInsert]
  | cons b l ih =>
    rw [bInsert]
    rcases List.pairwise_cons.mp hl with ⟨hb, hl'⟩
    by_cases h : le a b
    · rw [if_pos h]
      refine List.pairwise_cons.mpr ⟨?_, hl⟩
      intro y hy
      rcases List.mem_cons.mp hy with rfl | hy
      · exact h
      · exact htr a b y h (hb y hy)
    · rw [if_neg h]
      have hba : le b a := by
        rcases Bool.or_eq_true _ _ |>.mp (htot a b) with hab | hba
        · exact absurd hab h
        · exact hba
      refine List.pairwise_cons.mpr ⟨?_, ih hl'⟩
      intro y hy
      have : y = a ∨ y ∈ l := by
        have := (bInsert_perm le a l).mem_iff.mp hy
        simpa using this
      rcases this with rfl | hy'
      · exact hba
      · exact hb y hy'

theorem bSort_pairwise {le : α → α → Bool}
    (htot : ∀ x y, le x y || le y x) (htr : ∀ x y z, le x y → le y z → le x z)
    (l : List α) : (bSort le l).Pairwise (fun x y => le x y = true) := by
  induction l with
  | nil => simp [bSort]
  | cons a l ih => exact bInsert_pairwise htot htr a ih

theorem bInsert_map {le : α → α → Bool} {g : α → α}
    (hg : ∀ x y, le (g x) (g y) = le x y) (a : α) (l : List α) :
    bInsert le (g a) (l.map g) = (bInsert le a l).map g := by
  induction l with
  | nil => rfl
  | cons b l ih =>
    simp only [List.map_cons, bInsert, hg]
    by_cases h : le a b
    · simp [h]
    · simp [h, ih]

theorem bSort_map {le : α → α → Bool} {g : α → α}
    (hg : ∀ x y, le (g x) (g y) = le x y) (l : List α) :
    bSort le (l.map g) = (bSort le l).map g := by
  induction l with
  | nil => rfl
  | cons a l ih =>
    simp only [List.map_cons, bSort, ih]
    exact bInsert_map hg a (bSort le l)

theorem foldl_add_filter (tags : List String) (b : SearchQueryBuilder) :
    (tags.foldl (fun bb t => bb.add_filter .TAGS t .CONTAINS) b).filters =
      b.filters ++ tags.map (fun t => ⟨.TAGS, .CONTAINS, t, false⟩) := by
  induction tags generalizing b with
  | nil => simp
  | cons t ts ih =>
    rw [List.foldl_cons, ih]
    simp [SearchQueryBuilder.add_filter]

theorem colText_iconMap (fld : String) (g : Row → String) (r : Row) :
    colText fld (iconMap g r) = colText fld r := by
  unfold colText iconMap
  split_ifs <;> rfl

theorem eval_iconMap (f : SearchFilter) (g : Row → String) (r : Row) :
    f.eval (iconMap g r) = f.eval r := by
  unfold SearchFilter.eval
  simp only [colText_iconMap]

theorem evalFilters_iconMap (fs : List SearchFilter) (g : Row → String) (r : Row) :
    evalFilters fs (iconMap g r) = evalFilters fs r := by
  unfold evalFilters
  simp only [eval_iconMap]

theorem posLe_iconMap (g : Row → String) (a b : Row) :
    posLe (iconMap g a) (iconMap g b) = posLe a b := rfl

theorem selectCols6_iconMap (g : Row → String) (r : Row) :
    selectCols6 (iconMap g r) = selectCols6 r := rfl

theorem mapM_ofArgs_map_selectCols6 (l : List Row) :
    List.mapM LinkRecord.ofArgs (l.map selectCols6) = .ok (l.map projRecord) := by
  induction l with
  | nil => rfl
  | cons r l ih =>
    rw [List.map_cons, List.mapM_cons, ih]
    rfl

theorem simple_search_order_by (b : SearchQueryBuilder) (q : String) :
    (b.simple_search q).order_by = b.order_by := by
  unfold SearchQueryBuilder.simple_search
  split <;> rfl

theorem simple_search_order_direction (b : SearchQueryBuilder) (q : String) :
    (b.simple_search q).order_direction = b.order_direction := by
  unfold SearchQueryBuilder.simple_search
  split <;> rfl

theorem execQuery_position_asc (c : Conn) (b : SearchQueryBuilder)
    (cols : Row → List SqlValue)
    (hb : b.order_by = "position") (hd : b.order_direction = "ASC") :
    execQuery c b cols =
      .ok ((bSort posLe (c.cur.rows.filter (evalFilters b.filters))).map cols) := by
  obtain ⟨fs, ob, od⟩ := b
  have hb' : ob = "position" := hb
  have hd' : od = "ASC" := hd
  subst hb' hd'
  rfl

theorem posLe_total (a b : Row) : posLe a b || posLe b a := by
  unfold posLe
  rcases Int.le_total a.position b.position with h | h <;> simp [h]

theorem posLe_trans (a b c : Row) :
    posLe a b → posLe b c → posLe a c := by
  unfold posLe
  intro h1 h2
  simp only [decide_eq_true_eq] at h1 h2 ⊢
  exact le_trans h1 h2

theorem contains_pattern_data (x : String) :
    ("%" ++ x ++ "%").data = '%' :: (x.data ++ ['%']) := by
  simp [String.data_append]

theorem evalCond_contains_eq (x : String) (hw : noWild x.data) (s : String) :
    SearchFilter.evalCond ⟨.ALL, .CONTAINS, x, false⟩ s = containsCI s x := by
  unfold SearchFilter.evalCond containsCI
  show likeMatch s.data (SearchFilter.paramValue ⟨.ALL, .CONTAINS, x, false⟩).data = _
  show likeMatch s.data ("%" ++ x ++ "%").data = _
  rw [contains_pattern_data]
  rw [Bool.eq_iff_iff]
  exact likeMatch_contains_iff hw s.data

theorem eval_all_contains (x : String) (hw : noWild x.data) (r : Row) :
    SearchFilter.eval ⟨.ALL, .CONTAINS, x, false⟩ r = specMatch x r := by
  unfold SearchFilter.eval specMatch
  show List.any ["name", "path", "tags"] _ = _
  simp only [List.any_cons, List.any_nil, evalCond_contains_eq x hw, colText]
  simp [Bool.or_assoc]

theorem simple_search_filters_of_trim_ne (q : String) (h : pyStrip q ≠ "") :
    (SearchQueryBuilder.new.simple_search q).filters =
      [⟨.ALL, .CONTAINS, pyStrip q, false⟩] := by
  unfold SearchQueryBuilder.simple_search
  rw [if_pos h]
  rfl

theorem simple_search_filters_of_trim_blank (q : String) (h : pyStrip q = "") :
    (SearchQueryBuilder.new.simple_search q).filters = [] := by
  unfold SearchQueryBuilder.simple_search
  rw [if_neg (not_not.mpr h)]
  rfl

theorem evalFilters_singleton (f : SearchFilter) (r : Row) :
    evalFilters [f] r = f.eval r := by
  simp [evalFilters]

theorem list_links_eq_exec (db : LinkDatabase) (c : Conn) (q : String)
    (h1 : db.conn = some c) :
    list_links db q = .ok ((bSort posLe (c.cur.rows.filter
      (evalFilters (SearchQueryBuilder.new.simple_search q).filters))).map
        projRecord) := by
  unfold list_links
  rw [h1]
  dsimp only
  rw [execQuery_position_asc _ _ _
      (by rw [simple_search_order_by]; rfl)
      (by rw [simple_search_order_direction]; rfl)]
  dsimp only
  exact mapM_ofArgs_map_selectCols6 _

theorem reorderLoop_rw : ∀ (ids : List Int) (pos : Nat) (rows : List Row)
    (seq : Int) (tc : TableState),
    reorderLoop pos ids ⟨some ⟨⟨rows, seq⟩, tc⟩, false⟩ =
      (⟨some ⟨⟨applyReorder pos ids rows, seq⟩, tc⟩, false⟩, .ok ()) := by
  intro ids
  induction ids with
  | nil => intro pos rows seq tc; rfl
  | cons i rest ih =>
    intro pos rows seq tc
    show reorderLoop (pos + 1) rest
        ⟨some ⟨⟨rows.map (fun r => if r.id = i
          then { r with position := Int.ofNat pos } else r), seq⟩, tc⟩, false⟩ =
      (⟨some ⟨⟨applyReorder (pos + 1) rest
        (rows.map (fun r => if r.id = i
          then { r with position := Int.ofNat pos } else r)), seq⟩, tc⟩, false⟩, .ok ())
    exact ih (pos + 1) _ seq tc

theorem reorder_rw (rows : List Row) (seq : Int) (tc : TableState)
    (ids : List Int) :
    reorder ⟨some ⟨⟨rows, seq⟩, tc⟩, false⟩ ids =
      (⟨some ⟨⟨applyReorder 0 ids rows, seq⟩,
        ⟨applyReorder 0 ids rows, seq⟩⟩, false⟩, .ok ()) := by
  unfold reorder transaction
  rw [if_neg (by exact Bool.false_ne_true)]
  rw [reorderLoop_rw ids 0 rows seq tc]
  rfl

theorem applyReorder_map : ∀ (ids : List Int), ids.Nodup →
    ∀ (pos : Nat) (rows : List Row),
      applyReorder pos ids rows =
        rows.map (fun r => if r.id ∈ ids
          then { r with position := Int.ofNat (pos + idxIn ids r.id) } else r) := by
  intro ids
  induction ids with
  | nil =>
    intro _ pos rows
    simp [applyReorder]
  | cons j rest ih =>
    intro hnd pos rows
    have hj : j ∉ rest := (List.nodup_cons.mp hnd).1
    have hnd' : rest.Nodup := (List.nodup_cons.mp hnd).2
    show applyReorder (pos + 1) rest
        (rows.map (fun r => if r.id = j
          then { r with position := Int.ofNat pos } else r)) = _
    rw [ih hnd' (pos + 1) _, List.map_map]
    refine List.map_congr_left (fun r _ => ?_)
    by_cases h1 : r.id = j
    · simp [Function.comp, h1, hj, idxIn]
    · by_cases h2 : r.id ∈ rest
      · have harith : pos + 1 + idxIn rest r.id = pos + (idxIn rest r.id + 1) := by
          omega
        simp [Function.comp, h1, h2, idxIn, harith]
      · simp [Function.comp, h1, h2, idxIn]

theorem idxIn_map_range : ∀ (ids : List Int), ids.Nodup →
    ids.map (fun i => idxIn ids i) = List.range ids.length := by
  intro ids
  induction ids with
  | nil => intro _; rfl
  | cons j rest ih =>
    intro hnd
    have hj : j ∉ rest := (List.nodup_cons.mp hnd).1
    have hnd' : rest.Nodup := (List.nodup_cons.mp hnd).2
    rw [List.map_cons]
    have htail : rest.map (fun i => idxIn (j :: rest) i) =
        rest.map (fun i => idxIn rest i + 1) :=
      List.map_congr_left (fun i hi => by
        have hij : i ≠ j := fun h => hj (h ▸ hi)
        simp [idxIn, hij])
    rw [htail,
      show (fun i => idxIn rest i + 1) =
        (Nat.succ ∘ fun i => idxIn rest i) from funext (fun i => rfl),
      ← List.map_map, ih hnd', List.length_cons, List.range_succ_eq_map]
    simp [idxIn]

theorem foldl_max_init_le : ∀ (rows : List Row) (init : Int),
    init ≤ rows.foldl (fun m x => max m x.position) init := by
  intro rows
  induction rows with
  | nil => intro init; exact le_refl init
  | cons x xs ih =>
    intro init
    rw [List.foldl_cons]
    exact le_trans (le_max_left init x.position) (ih (max init x.position))

theorem foldl_max_le_mem : ∀ (rows : List Row) (init : Int) (r : Row), r ∈ rows →
    r.position ≤ rows.foldl (fun m x => max m x.position) init := by
  intro rows
  induction rows with
  | nil =>
    intro init r hr
    cases hr
  | cons x xs ih =>
    intro init r hr
    rcases List.mem_cons.mp hr with rfl | hr'
    · rw [List.foldl_cons]
      exact le_trans (le_max_right init r.position)
        (foldl_max_init_le xs (max init r.position))
    · rw [List.foldl_cons]
      exact ih (max init x.position) r hr'

theorem foldl_max_attained : ∀ (rows : List Row) (init : Int),
    rows.foldl (fun m x => max m x.position) init = init ∨
    ∃ r ∈ rows, rows.foldl (fun m x => max m x.position) init = r.position := by
  intro rows
  induction rows with
  | nil => intro init; exact Or.inl rfl
  | cons x xs ih =>
    intro init
    rw [List.foldl_cons]
    rcases ih (max init x.position) with h | ⟨r, hr, he⟩
    · rcases le_total init x.position with hle | hle
      · exact Or.inr ⟨x, List.mem_cons_self x xs, by rw [h]; exact max_eq_right hle⟩
      · exact Or.inl (by rw [h]; exact max_eq_left hle)
    · exact Or.inr ⟨r, List.mem_cons_of_mem x hr, he⟩

theorem runOps_cons (db : LinkDatabase) (op : Op) (rest : List Op) :
    runOps db (op :: rest) =
      ((runOps (runOp db op).1 rest).1,
        (runOp db op).2.toList ++ (runOps (runOp db op).1 rest).2) := rfl

theorem runOp_add (rows : List Row) (seq : Int) (tc : TableState)
    (n p t i now : String) :
    runOp ⟨some ⟨⟨rows, seq⟩, tc⟩, false⟩ (.add n p t i now) =
      (⟨some ⟨⟨rows ++ [⟨seq + 1, n, p, t, nextPosition rows, now, i⟩], seq + 1⟩,
        ⟨rows ++ [⟨seq + 1, n, p, t, nextPosition rows, now, i⟩], seq + 1⟩⟩, false⟩,
        some (seq + 1)) := rfl

theorem runOp_del (rows : List Row) (seq : Int) (tc : TableState) (i : Int) :
    runOp ⟨some ⟨⟨rows, seq⟩, tc⟩, false⟩ (.del i) =
      (⟨some ⟨⟨rows.filter (fun r => r.id != i), seq⟩,
        ⟨rows.filter (fun r => r.id != i), seq⟩⟩, false⟩, none) := rfl

theorem runOp_reord (rows : List Row) (seq : Int) (tc : TableState)
    (ids : List Int) :
    runOp ⟨some ⟨⟨rows, seq⟩, tc⟩, false⟩ (.reord ids) =
      (⟨some ⟨⟨applyReorder 0 ids rows, seq⟩,
        ⟨applyReorder 0 ids rows, seq⟩⟩, false⟩, none) := by
  show ((reorder ⟨some ⟨⟨rows, seq⟩, tc⟩, false⟩ ids).1, none) = _
  rw [reorder_rw]

theorem runOps_invariant : ∀ (ops : List Op) (rows : List Row) (seq : Int)
    (tc : TableState),
    ∃ c2 : Conn,
      (runOps ⟨some ⟨⟨rows, seq⟩, tc⟩, false⟩ ops).1 = ⟨some c2, false⟩ ∧
      seq ≤ c2.cur.seq ∧
      List.Chain' (· < ·) (runOps ⟨some ⟨⟨rows, seq⟩, tc⟩, false⟩ ops).2 ∧
      (∀ v ∈ (runOps ⟨some ⟨⟨rows, seq⟩, tc⟩, false⟩ ops).2,
        seq < v ∧ v ≤ c2.cur.seq) := by
  intro ops
  induction ops with
  | nil =>
    intro rows seq tc
    exact ⟨⟨⟨rows, seq⟩, tc⟩, rfl, le_refl seq, List.chain'_nil, by simp [runOps]⟩
  | cons op rest ih =>
    intro rows seq tc
    cases op with
    | add n p t i now =>
      obtain ⟨c2, hc2, hseq, hch, hbd⟩ :=
        ih (rows ++ [⟨seq + 1, n, p, t, nextPosition rows, now, i⟩]) (seq + 1)
          ⟨rows ++ [⟨seq + 1, n, p, t, nextPosition rows, now, i⟩], seq + 1⟩
      rw [runOps_cons, runOp_add]
      refine ⟨c2, hc2, le_trans (by omega) hseq, ?_, ?_⟩
      · show List.Chain' (· < ·) ((seq + 1) :: _)
        refine List.chain'_cons'.mpr ⟨?_, hch⟩
        intro b hb
        exact (hbd b (List.mem_of_mem_head? hb)).1
      · intro v hv
        rcases List.mem_cons.mp hv with rfl | hv'
        · exact ⟨by omega, hseq⟩
        · exact ⟨by have := (hbd v hv').1; omega, (hbd v hv').2⟩
    | del i =>
      obtain ⟨c2, hc2, hseq, hch, hbd⟩ :=
        ih (rows.filter (fun r => r.id != i)) seq
          ⟨rows.filter (fun r => r.id != i), seq⟩
      rw [runOps_cons, runOp_del]
      exact ⟨c2, hc2, hseq, hch, hbd⟩
    | reord ids =>
      obtain ⟨c2, hc2, hseq, hch, hbd⟩ :=
        ih (applyReorder 0 ids rows) seq ⟨applyReorder 0 ids rows, seq⟩
      rw [runOps_cons, runOp_reord]
      exact ⟨c2, hc2, hseq, hch, hbd⟩

/-! Claim theorems. -/

/-- C1: evaluation of the code at the spec's transaction-atomicity
scenario.  Three add_link calls run inside transaction(), the third made
to fail deterministically with a NOT NULL violation.  The claim says the
store holds zero records afterwards; because add_link issues its own
`self.conn.commit()` after every INSERT, the rollback taken by
transaction() cannot undo the first two writes, and two fully committed
records remain. -/
theorem c1_transaction_rollback_cannot_undo_add_link :
    (transaction emptyDb addThreeBody).2 =
      .error (.integrityError "NOT NULL constraint failed: links") ∧
    dbRows (transaction emptyDb addThreeBody).1 =
      [⟨1, "A", "/a", "", 0, "t1", ""⟩, ⟨2, "B", "/b", "", 1, "t2", ""⟩] ∧
    dbCommittedRows (transaction emptyDb addThreeBody).1 =
      [⟨1, "A", "/a", "", 0, "t1", ""⟩, ⟨2, "B", "/b", "", 1, "t2", ""⟩] ∧
    (dbRows (transaction emptyDb addThreeBody).1).length = 2 := by
  decide

/-- C3: evaluation of get_link_by_id at a store holding one record.  The
claim says the stored Record is returned; the SELECT of get_link_by_id
fetches seven columns (custom_icon included) while the LinkRecord
dataclass constructor takes six fields, so `LinkRecord(*row)` raises
TypeError whenever the row exists.  The not-found branch behaves as
claimed. -/
theorem c3_get_link_by_id_type_error_on_found_row :
    get_link_by_id oneRowDb 1 =
      .error (.typeError
        "LinkRecord.__init__() takes 7 positional arguments but 8 were given") ∧
    get_link_by_id oneRowDb 2 = .ok none := by
  decide

/-- C2 counterexample: on a read-only store, add_link does not fail with
the wrapper's clear read-only RuntimeError; the call reaches the storage
layer and fails there with sqlite3.OperationalError ("attempt to write a
readonly database"), refuting the "rather than an error surfacing from
the storage layer" part of the claim.  The stored row is left unchanged,
as the claim also asserts. -/
theorem c2_counterexample_add_link_fails_in_storage_layer :
    add_link roDb (some "New") (some "/new") "" "" "t" =
      (roDb, .error (.operationalError "attempt to write a readonly database")) ∧
    Err.isStorageLayer (.operationalError "attempt to write a readonly database") = true ∧
    Err.isStorageLayer (.runtimeError "Cannot start transaction on read-only database") = false := by
  decide

/-- C8 counterexample: update_link with no supplied fields, invoked after
close(), returns without any error (the `if not sets: return` fires
before the cleared connection is touched), refuting the claim that every
store operation invoked after close() fails. -/
theorem c8_counterexample_noop_update_succeeds_after_close :
    (update_link (close oneRowDb) 1).2 = .ok () ∧
    (close oneRowDb).conn = none := by
  decide

/-- C5 counterexample: two records are added (ids 1 and 2, positions 0
and 1) and reorder([2]) is called with a strict subset of the ids.  The
call succeeds, id 2 is repositioned to 0, id 1 keeps its old position 0,
and the resulting positions [0, 0] are not the claimed gapless
duplicate-free set 0..N-1 (the permutation test against [0, 1] fails). -/
theorem c5_counterexample_subset_reorder_duplicates_positions :
    (reorder twoRowDb [2]).2 = .ok () ∧
    (dbRows (reorder twoRowDb [2]).1).map Row.position = [0, 0] ∧
    ¬ List.Perm ((dbRows (reorder twoRowDb [2]).1).map Row.position)
        ((List.range 2).map Int.ofNat) := by
  decide

/-- C9: filter_by_tags treats its match mode as advisory only - the OR
and AND branches run the identical loop, so the resulting builders (and
hence their build() output, query text and parameter list) are equal, and
in both cases exactly one TAGS-field CONTAINS filter is appended per tag,
left to build()'s AND-join across filters. -/
theorem c9_filter_by_tags_or_and_identical :
    ∀ (b : SearchQueryBuilder) (tags : List String),
      b.filter_by_tags tags "OR" = b.filter_by_tags tags "AND" ∧
      (b.filter_by_tags tags "OR").build = (b.filter_by_tags tags "AND").build ∧
      (b.filter_by_tags tags "OR").filters =
        b.filters ++ tags.map (fun t => ⟨.TAGS, .CONTAINS, t, false⟩) := by
  intro b tags
  by_cases ht : tags = []
  · subst ht
    refine ⟨rfl, rfl, ?_⟩
    simp [SearchQueryBuilder.filter_by_tags]
  · have he : b.filter_by_tags tags "OR" = b.filter_by_tags tags "AND" := by
      simp [SearchQueryBuilder.filter_by_tags, ht]
    refine ⟨he, by rw [he], ?_⟩
    rw [SearchQueryBuilder.filter_by_tags, if_neg ht, if_pos rfl]
    exact foldl_add_filter tags b

/-- C2 (amended): on a read-only store the wrapper rejects transaction()
and reorder with its clear read-only RuntimeError, while add_link,
update_link (with at least one field supplied) and delete_link reach the
storage layer and fail there with sqlite3.OperationalError; in every
case the failed call returns the store unchanged, so the stored rows are
untouched. -/
theorem c2_read_only_mutations_fail_without_change
    (db : LinkDatabase) (c : Conn) (h1 : db.conn = some c)
    (h2 : db.read_only = true) :
    (∀ (body : LinkDatabase → LinkDatabase × Except Err Unit),
        transaction db body =
          (db, .error (.runtimeError "Cannot start transaction on read-only database"))) ∧
    (∀ ids, reorder db ids =
        (db, .error (.runtimeError "Cannot start transaction on read-only database"))) ∧
    (∀ n p t i now, add_link db (some n) (some p) t i now =
        (db, .error (.operationalError "attempt to write a readonly database"))) ∧
    (∀ id_ nm pa tg ic, ¬(nm = none ∧ pa = none ∧ tg = none ∧ ic = none) →
        update_link db id_ nm pa tg ic =
          (db, .error (.operationalError "attempt to write a readonly database"))) ∧
    (∀ id_, delete_link db id_ =
        (db, .error (.operationalError "attempt to write a readonly database"))) := by
  refine ⟨?_, ?_, ?_, ?_, ?_⟩
  · intro body
    simp [transaction, h2]
  · intro ids
    simp [reorder, transaction, h2]
  · intro n p t i now
    simp [add_link, h1, h2]
  · intro id_ nm pa tg ic hno
    rw [update_link, if_neg hno, h1]
    simp [h2]
  · intro id_
    simp [delete_link, h1, h2]

/-- C2 witness: the amended behaviour evaluated at the concrete
read-only store `roDb`. -/
theorem c2_read_only_mutations_fail_without_change_witness :
    reorder roDb [1] =
      (roDb, .error (.runtimeError "Cannot start transaction on read-only database")) :=
  (c2_read_only_mutations_fail_without_change roDb _ rfl rfl).2.1 [1]

/-- C8 (amended): close() is idempotent and total (the source swallows
any close failure, so it never raises); every operation that
dereferences the connection after close() fails deterministically with
the Python AttributeError on the absent handle - not a dedicated
store-closed error - while update_link with no supplied fields returns
without error even on a closed store. -/
theorem c8_close_idempotent_and_post_close_failures (db : LinkDatabase) :
    close (close db) = close db ∧
    (close db).conn = none ∧
    (∀ q, list_links (close db) q =
        .error (.attributeError "NoneType object has no attribute execute")) ∧
    (∀ b, search_links (close db) b =
        .error (.attributeError "NoneType object has no attribute execute")) ∧
    (∀ i, get_link_by_id (close db) i =
        .error (.attributeError "NoneType object has no attribute cursor")) ∧
    (∀ n p t i now, add_link (close db) (some n) (some p) t i now =
        (close db, .error (.attributeError "NoneType object has no attribute cursor"))) ∧
    (∀ i, delete_link (close db) i =
        (close db, .error (.attributeError "NoneType object has no attribute execute"))) ∧
    (∀ i nm, update_link (close db) i (some nm) =
        (close db, .error (.attributeError "NoneType object has no attribute execute"))) ∧
    (update_link (close db) 1).2 = .ok () := by
  refine ⟨rfl, rfl, fun q => rfl, fun b => rfl, fun i => rfl, fun n p t i now => rfl,
    fun i => rfl, ?_, rfl⟩
  intro i nm
  rw [update_link, if_neg]
  · rfl
  · rintro ⟨h, -⟩
    exact Option.noConfusion h

/-- C7: frame conditions of update_link and delete_link on an open
read-write store at rest.  With no fields supplied update_link leaves the
whole store unchanged without error; update_link or delete_link on an id
no stored row carries leaves the store unchanged and raises no error;
with fields supplied, update_link keeps the row count, keeps every row
with a different id verbatim, and rewrites the matching row so that each
supplied field takes the supplied value, each omitted field keeps its
stored value, and id, position and added_at are untouched. -/
theorem c7_update_link_partial_frame
    (db : LinkDatabase) (c : Conn) (id_ : Int) (nm pa tg ic : Option String)
    (h1 : db.conn = some c) (h2 : db.read_only = false)
    (h3 : c.committed = c.cur) :
    update_link db id_ = (db, .ok ()) ∧
    ((∀ r ∈ c.cur.rows, r.id ≠ id_) →
        update_link db id_ nm pa tg ic = (db, .ok ()) ∧
        delete_link db id_ = (db, .ok ())) ∧
    (¬(nm = none ∧ pa = none ∧ tg = none ∧ ic = none) →
      (update_link db id_ nm pa tg ic).2 = .ok () ∧
      (dbRows (update_link db id_ nm pa tg ic).1).length = c.cur.rows.length ∧
      (∀ r ∈ c.cur.rows, r.id ≠ id_ →
          r ∈ dbRows (update_link db id_ nm pa tg ic).1) ∧
      (∀ r ∈ c.cur.rows, r.id = id_ →
          ∃ r2 ∈ dbRows (update_link db id_ nm pa tg ic).1,
            r2.id = r.id ∧ r2.position = r.position ∧ r2.added_at = r.added_at ∧
            (nm = none → r2.name = r.name) ∧ (∀ v, nm = some v → r2.name = v) ∧
            (pa = none → r2.path = r.path) ∧ (∀ v, pa = some v → r2.path = v) ∧
            (tg = none → r2.tags = r.tags) ∧ (∀ v, tg = some v → r2.tags = v) ∧
            (ic = none → r2.custom_icon = r.custom_icon) ∧
            (∀ v, ic = some v → r2.custom_icon = v))) := by
  obtain ⟨conn0, ro⟩ := db
  obtain ⟨cur0, com0⟩ := c
  have h1' : conn0 = some ⟨cur0, com0⟩ := h1
  subst h1'
  have h2' : ro = false := h2
  subst h2'
  have h3' : cur0 = com0 := h3.symm
  subst h3'
  refine ⟨?_, ?_, ?_⟩
  · rw [update_link, if_pos ⟨rfl, rfl, rfl, rfl⟩]
  · intro hno
    have hmap : cur0.rows.map
        (fun r => if r.id = id_ then applyUpdate nm pa tg ic r else r) =
        cur0.rows := by
      rw [List.map_congr_left (fun r hr => if_neg (hno r hr))]
      exact List.map_id' cur0.rows
    have hf : cur0.rows.filter (fun r => r.id != id_) = cur0.rows :=
      List.filter_eq_self.mpr (fun r hr => by simpa using hno r hr)
    constructor
    · by_cases hset : nm = none ∧ pa = none ∧ tg = none ∧ ic = none
      · rw [update_link, if_pos hset]
      · rw [update_link, if_neg hset]
        simp [hmap]
    · rw [delete_link]
      simp [hf]
  · intro hset
    have he : update_link ⟨some ⟨cur0, cur0⟩, false⟩ id_ nm pa tg ic =
        (⟨some ⟨⟨cur0.rows.map
            (fun r => if r.id = id_ then applyUpdate nm pa tg ic r else r),
            cur0.seq⟩,
          ⟨cur0.rows.map
            (fun r => if r.id = id_ then applyUpdate nm pa tg ic r else r),
            cur0.seq⟩⟩, false⟩, .ok ()) := by
      rw [update_link, if_neg hset]
      rfl
    rw [he]
    refine ⟨rfl, by simp [dbRows], ?_, ?_⟩
    · intro r hr hne
      simp only [dbRows, List.mem_map]
      exact ⟨r, hr, by rw [if_neg hne]⟩
    · intro r hr heq
      refine ⟨applyUpdate nm pa tg ic r, ?_, rfl, rfl, rfl, ?_⟩
      · simp only [dbRows, List.mem_map]
        exact ⟨r, hr, by rw [if_pos heq]⟩
      · unfold applyUpdate
        refine ⟨?_, ?_, ?_, ?_, ?_, ?_, ?_, ?_⟩ <;>
          first
            | (intro h; subst h; rfl)
            | (intro v h; subst h; rfl)

/-- C7 witness: the frame conditions instantiated at the one-row store,
updating the absent id 99. -/
theorem c7_update_link_partial_frame_witness :
    update_link oneRowDb 99 = (oneRowDb, .ok ()) :=
  (c7_update_link_partial_frame oneRowDb _ 99 none none none none
    rfl rfl rfl).1

/-- C10: the Query Builder's SELECT list is fixed to the six columns id,
name, path, tags, position, added_at, so custom_icon is never selected:
(1) every built query's text starts with that exact SELECT list; (2)
list_links returns the same records whatever the stored custom_icon
values are (rewriting every row's icon override is invisible); (3) every
record a successful search_links call returns is the six-field
projection of a stored row - a LinkRecord value, which has no
custom_icon component at all. -/
theorem c10_records_expose_six_fields_without_custom_icon :
    (∀ b : SearchQueryBuilder, ∃ rest,
        b.build.1 =
          "SELECT id, name, path, tags, position, added_at FROM links" ++ rest) ∧
    (∀ (rows : List Row) (seq : Int) (ts : TableState) (ro : Bool)
        (q : String) (g : Row → String),
        list_links ⟨some ⟨⟨rows.map (iconMap g), seq⟩, ts⟩, ro⟩ q =
          list_links ⟨some ⟨⟨rows, seq⟩, ts⟩, ro⟩ q) ∧
    (∀ (db : LinkDatabase) (c : Conn) (b : SearchQueryBuilder)
        (l : List LinkRecord),
        db.conn = some c → search_links db b = .ok l →
        ∀ rec2 ∈ l, ∃ r ∈ c.cur.rows, rec2 = projRecord r) := by
  refine ⟨?_, ?_, ?_⟩
  · intro b
    obtain ⟨fs, ob, od⟩ := b
    cases fs with
    | nil =>
      refine ⟨" ORDER BY " ++ ob ++ " " ++ od ++ ";", ?_⟩
      show (((("SELECT id, name, path, tags, position, added_at FROM links"
          ++ " ORDER BY ") ++ ob) ++ " ") ++ od) ++ ";" = _
      simp only [String.append_assoc]
    | cons f0 fs' =>
      refine ⟨(" WHERE " ++ String.intercalate " AND "
          ((f0 :: fs').map (fun f => if (f0 :: fs').length > 1
            then "(" ++ f.to_sql.1 ++ ")" else f.to_sql.1))) ++
          " ORDER BY " ++ ob ++ " " ++ od ++ ";", ?_⟩
      show (((("SELECT id, name, path, tags, position, added_at FROM links"
          ++ " WHERE " ++ String.intercalate " AND "
            ((f0 :: fs').map (fun f => if (f0 :: fs').length > 1
              then "(" ++ f.to_sql.1 ++ ")" else f.to_sql.1)))
          ++ " ORDER BY ") ++ ob ++ " ") ++ od) ++ ";" = _
      simp only [String.append_assoc]
  · intro rows seq ts ro q g
    have hb1 : (SearchQueryBuilder.new.simple_search q).order_by = "position" := by
      rw [simple_search_order_by]
      rfl
    have hd1 : (SearchQueryBuilder.new.simple_search q).order_direction = "ASC" := by
      rw [simple_search_order_direction]
      rfl
    unfold list_links
    dsimp only
    rw [execQuery_position_asc _ _ _ hb1 hd1, execQuery_position_asc _ _ _ hb1 hd1]
    dsimp only
    have hfil : (rows.map (iconMap g)).filter
        (evalFilters (SearchQueryBuilder.new.simple_search q).filters) =
        (rows.filter
          (evalFilters (SearchQueryBuilder.new.simple_search q).filters)).map
          (iconMap g) := by
      rw [List.filter_map]
      refine congrArg _ (List.filter_congr (fun r _ => ?_))
      simp [Function.comp, evalFilters_iconMap]
    rw [hfil, bSort_map (posLe_iconMap g), List.map_map]
    rw [show selectCols6 ∘ iconMap g = selectCols6 from funext (fun r => rfl)]
  · intro db c b l h1 h2 rec2 hrec
    unfold search_links at h2
    rw [h1] at h2
    dsimp only at h2
    rcases hc : colRel b.order_by with - | le
    · simp only [execQuery, hc] at h2
      exact absurd h2 (by simp)
    · rcases hd : dirRel b.order_direction le with - | le2
      · simp only [execQuery, hc, hd] at h2
        exact absurd h2 (by simp)
      · simp only [execQuery, hc, hd] at h2
        rw [mapM_ofArgs_map_selectCols6] at h2
        have hl : l = (bSort le2
            (c.cur.rows.filter (evalFilters b.filters))).map projRecord :=
          (Except.ok.inj h2).symm
        rw [hl] at hrec
        rcases List.mem_map.mp hrec with ⟨r, hr, hpr⟩
        refine ⟨r, ?_, hpr.symm⟩
        have := (bSort_perm le2 _).mem_iff.mp hr
        exact (List.mem_filter.mp this).1

/-- C10 witness: the projection property applied to the one-row store
with a fresh builder. -/
theorem c10_records_expose_six_fields_without_custom_icon_witness :
    ∃ r ∈ [sampleRow], projRecord sampleRow = projRecord r :=
  (c10_records_expose_six_fields_without_custom_icon).2.2 oneRowDb
    ⟨⟨[sampleRow], 1⟩, ⟨[sampleRow], 1⟩⟩ SearchQueryBuilder.new
    [projRecord sampleRow] rfl (by decide) (projRecord sampleRow) (by decide)

/-- C4 counterexample: the search string is passed as the LIKE pattern
body, so its wildcards stay active.  A store holds one record none of
whose fields contains an underscore; searching for "_" still returns the
record (LIKE's `_` matches any single character), refuting "returns
exactly the subset of records whose name, path, or tags contain x as a
literal substring". -/
theorem c4_counterexample_underscore_is_wildcard :
    list_links plainDb "_" = .ok [projRecord plainRow] ∧
    specMatch "_" plainRow = false ∧
    containsCI plainRow.name "_" = false ∧
    containsCI plainRow.path "_" = false ∧
    containsCI plainRow.tags "_" = false := by
  decide

/-- C4 (amended): on an open store, list_links with a blank search string
returns all records in ascending position order, and list_links with a
trimmed, non-empty, wildcard-free search string x returns exactly the
records whose name, path or tags contain x as a literal substring under
ASCII case folding, in ascending position order.  (The counterexample
forces the wildcard-free restriction; SQLite's LIKE also folds only
ASCII letters, and the code searches for the stripped string, whence the
trimmed-x hypothesis.) -/
theorem c4_list_links_round_trip_search
    (db : LinkDatabase) (c : Conn) (x : String) (h1 : db.conn = some c) :
    (pyStrip x = "" →
      ∃ l, list_links db x = .ok l ∧
        List.Perm l (c.cur.rows.map projRecord) ∧
        l.Pairwise (fun a b => a.position ≤ b.position)) ∧
    (pyStrip x = x → x ≠ "" → noWild x.data →
      ∃ l, list_links db x = .ok l ∧
        List.Perm l ((c.cur.rows.filter (specMatch x)).map projRecord) ∧
        l.Pairwise (fun a b => a.position ≤ b.position)) := by
  have hpair : ∀ rows : List Row,
      ((bSort posLe rows).map projRecord).Pairwise
        (fun a b => a.position ≤ b.position) := by
    intro rows
    refine List.Pairwise.map projRecord (fun a b h => ?_)
      (bSort_pairwise posLe_total posLe_trans rows)
    simpa [posLe] using h
  constructor
  · intro hb
    have he : list_links db x =
        .ok ((bSort posLe c.cur.rows).map projRecord) := by
      rw [list_links_eq_exec db c x h1, simple_search_filters_of_trim_blank x hb]
      have hfe : List.filter (evalFilters []) c.cur.rows = c.cur.rows :=
        List.filter_eq_self.mpr (fun r _ => rfl)
      rw [hfe]
    exact ⟨_, he, List.Perm.map projRecord (bSort_perm posLe c.cur.rows), hpair _⟩
  · intro ht hne hw
    have htne : pyStrip x ≠ "" := by
      rw [ht]
      exact hne
    have he : list_links db x =
        .ok ((bSort posLe (c.cur.rows.filter (specMatch x))).map projRecord) := by
      rw [list_links_eq_exec db c x h1, simple_search_filters_of_trim_ne x htne]
      have hfe : c.cur.rows.filter
          (evalFilters [⟨.ALL, .CONTAINS, pyStrip x, false⟩]) =
          c.cur.rows.filter (specMatch x) := by
        refine List.filter_congr (fun r _ => ?_)
        rw [evalFilters_singleton, ht, eval_all_contains x hw]
      rw [hfe]
    exact ⟨_, he,
      List.Perm.map projRecord (bSort_perm posLe (c.cur.rows.filter (specMatch x))),
      hpair _⟩

/-- C4 witness: the amended search behaviour evaluated at the one-record
store for the literal search string "work". -/
theorem c4_list_links_round_trip_search_witness :
    ∃ l, list_links oneRowDb "work" = .ok l ∧
      List.Perm l (([sampleRow].filter (specMatch "work")).map projRecord) ∧
      l.Pairwise (fun a b : LinkRecord => a.position ≤ b.position) :=
  (c4_list_links_round_trip_search oneRowDb ⟨⟨[sampleRow], 1⟩, ⟨[sampleRow], 1⟩⟩
    "work" rfl).2 (by decide) (by decide) (by decide)

/-- C5 (amended): reorder(ordered_ids) succeeds on an open read-write
store, and whenever the duplicate-free supplied id list covers exactly
the ids of the current records (which are pairwise distinct, the table's
primary-key invariant), the resulting positions of all records form
precisely the set {0, ..., N-1}: the position multiset is a permutation
of 0..N-1, so there are no gaps and no duplicates. -/
theorem c5_reorder_of_full_id_set_makes_positions_dense
    (db : LinkDatabase) (c : Conn) (ids : List Int)
    (h1 : db.conn = some c) (h2 : db.read_only = false)
    (hrn : (c.cur.rows.map Row.id).Nodup)
    (hperm0 : List.Perm ids (c.cur.rows.map Row.id)) :
    (reorder db ids).2 = .ok () ∧
    (dbRows (reorder db ids).1).length = c.cur.rows.length ∧
    List.Perm ((dbRows (reorder db ids).1).map Row.position)
      ((List.range c.cur.rows.length).map Int.ofNat) := by
  obtain ⟨conn0, ro⟩ := db
  have h1' : conn0 = some c := h1
  subst h1'
  have h2' : ro = false := h2
  subst h2'
  obtain ⟨cur0, tc⟩ := c
  obtain ⟨rows, seq⟩ := cur0
  have hin : ids.Nodup := hperm0.nodup_iff.mpr hrn
  have hset : ∀ i, i ∈ ids ↔ i ∈ rows.map Row.id := fun i => hperm0.mem_iff
  have hall : ∀ r ∈ rows, r.id ∈ ids :=
    fun r hr => (hset r.id).mpr (List.mem_map_of_mem Row.id hr)
  have hmape : applyReorder 0 ids rows =
      rows.map (fun r => { r with position := Int.ofNat (idxIn ids r.id) }) := by
    rw [applyReorder_map ids hin 0 rows]
    exact List.map_congr_left (fun r hr => by
      rw [if_pos (hall r hr)]
      simp)
  rw [reorder_rw rows seq tc ids]
  refine ⟨rfl, ?_, ?_⟩
  · show (applyReorder 0 ids rows).length = rows.length
    rw [hmape]
    exact List.length_map _ _
  · show List.Perm ((applyReorder 0 ids rows).map Row.position)
      ((List.range rows.length).map Int.ofNat)
    rw [hmape, List.map_map]
    have hcomp : (Row.position ∘ fun r =>
        { r with position := Int.ofNat (idxIn ids r.id) }) =
        ((fun i => Int.ofNat (idxIn ids i)) ∘ Row.id) := funext (fun r => rfl)
    rw [hcomp, ← List.map_map]
    have hperm : List.Perm (rows.map Row.id) ids := hperm0.symm
    have hlen : rows.length = ids.length := by
      simpa using hperm.length_eq
    rw [hlen, ← idxIn_map_range ids hin]
    conv_rhs => rw [List.map_map]
    exact hperm.map (fun i => Int.ofNat (idxIn ids i))

/-- C6: add_link on an open read-write store returns the freshly
allocated id (the AUTOINCREMENT sequence value plus one, strictly above
every stored id), appends exactly one row stamped with the supplied
current-time string, whose position is 0 on an empty store and otherwise
strictly above every existing position and equal to some existing
position plus one (i.e. the maximum plus one, positions being
non-negative); and over any sequence of add/delete/reorder calls the ids
returned by the adds are strictly increasing, hence never reused. -/
theorem c6_add_link_position_and_monotonic_ids
    (db : LinkDatabase) (c : Conn) (n p t i now : String)
    (h1 : db.conn = some c) (h2 : db.read_only = false)
    (hpos : ∀ r ∈ c.cur.rows, 0 ≤ r.position)
    (hid : ∀ r ∈ c.cur.rows, r.id ≤ c.cur.seq) :
    (add_link db (some n) (some p) t i now).2 = .ok (c.cur.seq + 1) ∧
    dbRows (add_link db (some n) (some p) t i now).1 =
      c.cur.rows ++ [⟨c.cur.seq + 1, n, p, t, nextPosition c.cur.rows, now, i⟩] ∧
    (c.cur.rows = [] → nextPosition c.cur.rows = 0) ∧
    (∀ r ∈ c.cur.rows, r.position < nextPosition c.cur.rows) ∧
    (c.cur.rows ≠ [] → ∃ r ∈ c.cur.rows, nextPosition c.cur.rows = r.position + 1) ∧
    (∀ r ∈ c.cur.rows, r.id < c.cur.seq + 1) ∧
    (∀ ops : List Op, List.Chain' (· < ·) (runOps db ops).2) := by
  obtain ⟨conn0, ro⟩ := db
  have h1' : conn0 = some c := h1
  subst h1'
  have h2' : ro = false := h2
  subst h2'
  obtain ⟨cur0, tc⟩ := c
  obtain ⟨rows, seq⟩ := cur0
  refine ⟨rfl, rfl, ?_, ?_, ?_, ?_, ?_⟩
  · intro hnil
    subst hnil
    rfl
  · intro r hr
    have h := foldl_max_le_mem rows (-1) r hr
    show r.position < rows.foldl (fun m x => max m x.position) (-1) + 1
    omega
  · intro hne
    rcases foldl_max_attained rows (-1) with h | ⟨r, hr, he⟩
    · exfalso
      cases rows with
      | nil => exact hne rfl
      | cons x xs =>
        have hx := foldl_max_le_mem (x :: xs) (-1) x (List.mem_cons_self x xs)
        have hx0 := hpos x (List.mem_cons_self x xs)
        rw [h] at hx
        omega
    · exact ⟨r, hr, by show rows.foldl _ (-1) + 1 = _; omega⟩
  · intro r hr
    have := hid r hr
    omega
  · intro ops
    obtain ⟨c2, _, _, hch, _⟩ := runOps_invariant ops rows seq tc
    exact hch

/-- C6 witness: add_link evaluated at the one-record store, plus the
strict monotonicity of returned ids over a concrete add/delete/add
sequence. -/
theorem c6_add_link_position_and_monotonic_ids_witness :
    (add_link oneRowDb (some "Img") (some "/pics/b.png") "" "" "t2").2 =
      .ok 2 ∧
    List.Chain' (· < ·) (runOps oneRowDb
      [.add "A" "/a" "" "" "t2", .del 1, .add "B" "/b" "" "" "t3"]).2 := by
  have h := c6_add_link_position_and_monotonic_ids oneRowDb
    ⟨⟨[sampleRow], 1⟩, ⟨[sampleRow], 1⟩⟩ "Img" "/pics/b.png" "" "" "t2"
    rfl rfl (by decide) (by decide)
  exact ⟨h.1, h.2.2.2.2.2.2 [.add "A" "/a" "" "" "t2", .del 1, .add "B" "/b" "" "" "t3"]⟩

/-- C5 witness: the amended density property evaluated at the two-record
store, reordering with the full id list [2, 1]. -/
theorem c5_reorder_of_full_id_set_makes_positions_dense_witness :
    (reorder twoRowDb [2, 1]).2 = .ok () ∧
    (dbRows (reorder twoRowDb [2, 1]).1).length = (dbRows twoRowDb).length ∧
    List.Perm ((dbRows (reorder twoRowDb [2, 1]).1).map Row.position)
      ((List.range (dbRows twoRowDb).length).map Int.ofNat) :=
  c5_reorder_of_full_id_set_makes_positions_dense twoRowDb
    ⟨⟨[⟨1, "Doc", "/a", "", 0, "t1", ""⟩, ⟨2, "Img", "/b", "", 1, "t2", ""⟩], 2⟩,
      ⟨[⟨1, "Doc", "/a", "", 0, "t1", ""⟩, ⟨2, "Img", "/b", "", 1, "t2", ""⟩], 2⟩⟩
    [2, 1] rfl rfl (by decide) (by decide)

end FsLink
